import Mathlib

/-!
Shallow embedding of `src/app/src/core/experiment/Experiment.ts` from the
TissueMAPS client: the `Experiment` aggregate, its construction from a
serialized wire record, its derived projections (`maxZoom`, `maxZ`, `minZ`)
and its asynchronous lifecycle operations (`getAll`, `get`, `delete`,
`create`, `submitWorkflow`).

Modelling conventions:
- JavaScript numbers used by the projections are modelled as `Int`, with the
  special values `-Infinity` / `+Infinity` (produced by `Math.max()` /
  `Math.min()` on an empty argument list) modelled explicitly by `JsNum`.
- A thrown `TypeError` (property access on `undefined`, as in
  `this.channels[0].layers[0]` on an empty collection) is modelled by
  `Except JsError`.
- The lodash call `_.extend(ch, {visible: b})` mutates the record `ch` in
  place and returns it.  The constructor is therefore modelled by explicit
  state passing: it returns both the constructed `Experiment` and the
  post-construction state of the caller's `channels` records (the same
  objects, after mutation).
- AngularJS promise semantics: a `.then`/`.catch` handler that returns a
  plain value makes the resulting promise *resolve* with that value; a
  handler that returns `undefined` (no `return` statement) makes it resolve
  with `undefined`.  A promise chain with no `.catch` propagates the
  rejection with the original failure response.  The transport outcome of
  the underlying `$http` call is passed in as an explicit
  `Except FailureResponse _` parameter.
-/

namespace TissueMaps

/-- A feature descriptor; opaque to the core beyond being a named record
(`Feature[]` in `MapobjectType`). -/
structure Feature where
  name : String
  deriving DecidableEq, Repr

/-- `interface MapobjectType { id; name; features }` from `Experiment.ts`. -/
structure MapobjectType where
  id : String
  name : String
  features : List Feature
  deriving DecidableEq, Repr

/-- Modelled from the spec: a Layer is "a single resolution level of tiled
image data within a channel; exposes a maximum zoom level" (the only field
the core reads). -/
structure Layer where
  maxZoom : Int
  deriving DecidableEq, Repr

/-- A serialized channel record as delivered on the wire inside
`SerializedExperiment.channels`.  Its shape is owned by the external
Channel contract; the core reads `maxZ`, `minZ` and the layers' `maxZoom`,
and writes a `visible` flag into the record.  `visible : Option Bool`
models a JavaScript field that may be absent (`none`) or present. -/
structure SerializedChannel where
  id : String
  maxZ : Int
  minZ : Int
  layers : List Layer
  visible : Option Bool
  deriving DecidableEq, Repr

/-- Modelled from the spec: a Channel is "constructed from a serialized
channel record plus an injected `visible` flag"; it "exposes `maxZ`,
`minZ` (focal-plane extrema) and a collection of Layers each exposing
`maxZoom`".  The Channel class itself is an external collaborator whose
source is not part of the analysed excerpt. -/
structure Channel where
  id : String
  maxZ : Int
  minZ : Int
  layers : List Layer
  visible : Bool
  deriving DecidableEq, Repr

/-- Modelled from the spec: the Channel constructor, reading the fields of
the (already merged) serialized record; the merged record always carries a
`visible` flag, read here with `false` as the default for an absent field. -/
def Channel.ofSerialized (ch : SerializedChannel) : Channel :=
  { id := ch.id
    maxZ := ch.maxZ
    minZ := ch.minZ
    layers := ch.layers
    visible := ch.visible.getD false }

/-- The wire shape of a serialized experiment (`SerializedExperiment`,
snake_case field names), as consumed by the `Experiment` constructor. -/
structure SerializedExperiment where
  id : String
  name : String
  description : String
  status : String
  plate_format : String
  microscope_type : String
  plate_acquisition_mode : String
  mapobject_types : List MapobjectType
  workflow_description : String
  channels : List SerializedChannel
  deriving DecidableEq, Repr

/-- The `Experiment` aggregate (class `Experiment` in `Experiment.ts`),
with the snake-case-to-camel-case renaming of the constructor. -/
structure Experiment where
  id : String
  name : String
  description : String
  plateFormat : String
  microscopeType : String
  mapobjectTypes : List MapobjectType
  plateAcquisitionMode : String
  channels : List Channel
  workflowDescription : String
  status : String
  deriving DecidableEq, Repr

/-- `_.extend(ch, {visible: b})`: lodash `extend` copies the source's
properties onto the destination object *in place* and returns the
destination.  The returned record is the post-mutation state of the very
record `ch` that was passed in. -/
def extendVisible (ch : SerializedChannel) (b : Bool) : SerializedChannel :=
  { ch with visible := some b }

/-- The channel-building loop of the `Experiment` constructor:

```
args.channels.forEach((ch) => {
    var isFirstChannel = this.channels.length == 0;
    var channel = new Channel(_.extend(ch, { visible: isFirstChannel }));
    this.channels.push(channel);
});
```

Modelled as a left fold over the serialized records.  The first component
of the accumulator is `this.channels` (the growing list of constructed
Channels); the second component records, in order, the post-mutation state
of each serialized record `ch` (mutated in place by `_.extend`). -/
def buildChannels (cs : List SerializedChannel) :
    List Channel × List SerializedChannel :=
  cs.foldl
    (fun acc ch =>
      let isFirstChannel := acc.1.length == 0
      let ch2 := extendVisible ch isFirstChannel
      (acc.1 ++ [Channel.ofSerialized ch2], acc.2 ++ [ch2]))
    ([], [])

/-- The `Experiment` constructor.  Scalar fields are copied verbatim with
the stated renaming; the channel loop is `buildChannels`.  The second
component of the result is the post-construction state of the caller's
`args.channels` records (mutated in place by `_.extend` inside the loop). -/
def Experiment.ofSerialized (args : SerializedExperiment) :
    Experiment × List SerializedChannel :=
  let built := buildChannels args.channels
  ({ id := args.id
     name := args.name
     description := args.description
     status := args.status
     plateFormat := args.plate_format
     microscopeType := args.microscope_type
     plateAcquisitionMode := args.plate_acquisition_mode
     mapobjectTypes := args.mapobject_types
     workflowDescription := args.workflow_description
     channels := built.1 },
   built.2)

/-- A JavaScript number as produced by the `maxZ`/`minZ` projections:
either an ordinary (integral) number or one of the infinities returned by
`Math.max()` / `Math.min()` on an empty argument list. -/
inductive JsNum where
  | num : Int → JsNum
  | negInf : JsNum
  | posInf : JsNum
  deriving DecidableEq, Repr

/-- A runtime error signalled at a point of access, e.g. the `TypeError`
thrown by reading a property of `undefined`. -/
inductive JsError where
  | typeError : JsError
  deriving DecidableEq, Repr

/-- `Math.max.apply(this, zs)`: `Math.max()` with no arguments returns
`-Infinity`; otherwise the largest argument. -/
def mathMax (zs : List Int) : JsNum :=
  match zs with
  | [] => JsNum.negInf
  | z :: rest => JsNum.num (rest.foldl max z)

/-- `Math.min.apply(this, zs)`: `Math.min()` with no arguments returns
`+Infinity`; otherwise the smallest argument. -/
def mathMin (zs : List Int) : JsNum :=
  match zs with
  | [] => JsNum.posInf
  | z :: rest => JsNum.num (rest.foldl min z)

/-- `get maxZoom(): number { return this.channels[0].layers[0].maxZoom; }`.
If `channels` is empty, `this.channels[0]` is `undefined` and reading
`.layers` on it throws a `TypeError`; likewise if the first channel's
`layers` is empty, `layers[0]` is `undefined` and reading `.maxZoom`
throws. -/
def Experiment.maxZoom (e : Experiment) : Except JsError Int :=
  match e.channels with
  | [] => Except.error JsError.typeError
  | c :: _ =>
    match c.layers with
    | [] => Except.error JsError.typeError
    | l :: _ => Except.ok l.maxZoom

/-- `get maxZ()`: maps every channel to its own `maxZ` and applies
`Math.max` to the resulting array. -/
def Experiment.maxZ (e : Experiment) : JsNum :=
  mathMax (e.channels.map (fun ch => ch.maxZ))

/-- `get minZ()`: maps every channel to its own `minZ` and applies
`Math.min` to the resulting array. -/
def Experiment.minZ (e : Experiment) : JsNum :=
  mathMin (e.channels.map (fun ch => ch.minZ))

/-- The body of a failing `$http` response: the handlers read
`resp.data.error`. -/
structure ErrorBody where
  error : String
  deriving DecidableEq, Repr

/-- A failing `$http` response (`resp` in a `.catch` handler). -/
structure FailureResponse where
  data : ErrorBody
  deriving DecidableEq, Repr

/-- The outcome of an AngularJS promise: resolved with a value or rejected
with a reason. -/
inductive POutcome (α : Type) where
  | resolved : α → POutcome α
  | rejected : α → POutcome α
  deriving DecidableEq, Repr

/-- The heterogeneous JavaScript values the lifecycle operations settle
with: a boolean, an error-payload string, `undefined`, an Experiment, a
list of Experiments, a raw response body, or a whole failure response
(propagated as a rejection reason by chains with no `.catch`). -/
inductive JsValue where
  | bool : Bool → JsValue
  | str : String → JsValue
  | undef : JsValue
  | exp : Experiment → JsValue
  | exps : List Experiment → JsValue
  | failResp : FailureResponse → JsValue
  deriving DecidableEq, Repr

/-- A successful `$http` response whose body is ignored by the handler
(`delete` ignores `resp`); `data` is its opaque body. -/
structure OpaqueResponse where
  data : String
  deriving DecidableEq, Repr

/-- `static getAll()`: on success, maps each record of
`resp.data.experiments` to `new Experiment(e)`.  There is no `.catch`, so
a transport failure propagates: the returned promise is rejected with the
original failure response. -/
def Experiment.getAll
    (transport : Except FailureResponse (List SerializedExperiment)) :
    POutcome JsValue :=
  match transport with
  | Except.ok exps =>
    POutcome.resolved (JsValue.exps (exps.map (fun e => (Experiment.ofSerialized e).1)))
  | Except.error resp => POutcome.rejected (JsValue.failResp resp)

/-- `static get(id)`: on success, `new Experiment(resp.data.experiment)`;
no `.catch`, so a transport failure propagates as a rejection with the
original failure response. -/
def Experiment.getOne
    (transport : Except FailureResponse SerializedExperiment) :
    POutcome JsValue :=
  match transport with
  | Except.ok e => POutcome.resolved (JsValue.exp (Experiment.ofSerialized e).1)
  | Except.error resp => POutcome.rejected (JsValue.failResp resp)

/-- `static delete(id)`: `.then((resp) => true)` resolves to `true` on any
success, ignoring the response body; `.catch((resp) => resp.data.error)`
returns a plain value from the catch handler, so on failure the resulting
promise *resolves* to the error payload instead of rejecting. -/
def Experiment.deleteOp
    (transport : Except FailureResponse OpaqueResponse) :
    POutcome JsValue :=
  match transport with
  | Except.ok _ => POutcome.resolved (JsValue.bool true)
  | Except.error resp => POutcome.resolved (JsValue.str resp.data.error)

/-- `static create(args)`: a deferred is resolved with
`new Experiment(resp.data.experiment)` on success and rejected with
`resp.data.error` on failure; the deferred's promise is returned. -/
def Experiment.create
    (transport : Except FailureResponse SerializedExperiment) :
    POutcome JsValue :=
  match transport with
  | Except.ok e =>
    POutcome.resolved (JsValue.exp (Experiment.ofSerialized e).1)
  | Except.error resp => POutcome.rejected (JsValue.str resp.data.error)

/-- `submitWorkflow(workflowArgs)`: on success the `.then` handler returns
`resp.data`, the raw response payload.  On failure the `.catch` handler
evaluates `$q.reject(resp.data.error);` but does not return it: the newly
created rejected promise is discarded, the handler returns `undefined`,
and the resulting promise therefore *resolves* to `undefined`. -/
def Experiment.submitWorkflow
    (transport : Except FailureResponse String) :
    POutcome JsValue :=
  match transport with
  | Except.ok respData => POutcome.resolved (JsValue.str respData)
  | Except.error _ => POutcome.resolved JsValue.undef

/-- Closed-form companion of the constructor loop: builds the channel list
and the post-mutation record list starting from a loop counter `n` (the
number of channels already pushed). -/
def buildChannelsFrom (n : Nat) :
    List SerializedChannel → List Channel × List SerializedChannel
  | [] => ([], [])
  | ch :: rest =>
    let ch2 := extendVisible ch (n == 0)
    let built := buildChannelsFrom (n + 1) rest
    (Channel.ofSerialized ch2 :: built.1, ch2 :: built.2)

theorem buildChannels_go (cs : List SerializedChannel)
    (acc1 : List Channel) (acc2 : List SerializedChannel) :
    cs.foldl
      (fun acc ch =>
        let isFirstChannel := acc.1.length == 0
        let ch2 := extendVisible ch isFirstChannel
        (acc.1 ++ [Channel.ofSerialized ch2], acc.2 ++ [ch2]))
      (acc1, acc2)
      = (acc1 ++ (buildChannelsFrom acc1.length cs).1,
         acc2 ++ (buildChannelsFrom acc1.length cs).2) := by
  induction cs generalizing acc1 acc2 with
  | nil => simp [buildChannelsFrom]
  | cons ch rest ih =>
    simp only [List.foldl_cons]
    rw [ih]
    simp [buildChannelsFrom]

theorem buildChannels_eq (cs : List SerializedChannel) :
    buildChannels cs = buildChannelsFrom 0 cs := by
  have h := buildChannels_go cs [] []
  simpa [buildChannels] using h

theorem buildChannelsFrom_fst_length (n : Nat) (cs : List SerializedChannel) :
    (buildChannelsFrom n cs).1.length = cs.length := by
  induction cs generalizing n with
  | nil => rfl
  | cons ch rest ih => simp [buildChannelsFrom, ih]

theorem buildChannelsFrom_snd_length (n : Nat) (cs : List SerializedChannel) :
    (buildChannelsFrom n cs).2.length = cs.length := by
  induction cs generalizing n with
  | nil => rfl
  | cons ch rest ih => simp [buildChannelsFrom, ih]

theorem buildChannelsFrom_fst_getElem (n : Nat) (cs : List SerializedChannel)
    (i : Nat) :
    (buildChannelsFrom n cs).1[i]?
      = cs[i]?.map (fun ch => Channel.ofSerialized (extendVisible ch (n + i == 0))) := by
  induction cs generalizing n i with
  | nil => simp [buildChannelsFrom]
  | cons ch rest ih =>
    cases i with
    | zero => simp [buildChannelsFrom]
    | succ j =>
      have step := ih (n + 1) j
      have harith : n + 1 + j = n + (j + 1) := by omega
      rw [harith] at step
      simpa [buildChannelsFrom] using step

theorem buildChannelsFrom_snd_getElem (n : Nat) (cs : List SerializedChannel)
    (i : Nat) :
    (buildChannelsFrom n cs).2[i]?
      = cs[i]?.map (fun ch => extendVisible ch (n + i == 0)) := by
  induction cs generalizing n i with
  | nil => simp [buildChannelsFrom]
  | cons ch rest ih =>
    cases i with
    | zero => simp [buildChannelsFrom]
    | succ j =>
      have step := ih (n + 1) j
      have harith : n + 1 + j = n + (j + 1) := by omega
      rw [harith] at step
      simpa [buildChannelsFrom] using step

theorem ofSerialized_channels (args : SerializedExperiment) :
    (Experiment.ofSerialized args).1.channels = (buildChannelsFrom 0 args.channels).1 := by
  simp [Experiment.ofSerialized, buildChannels_eq]

theorem ofSerialized_postRecords (args : SerializedExperiment) :
    (Experiment.ofSerialized args).2 = (buildChannelsFrom 0 args.channels).2 := by
  simp [Experiment.ofSerialized, buildChannels_eq]

theorem ofSerialized_channels_length (args : SerializedExperiment) :
    (Experiment.ofSerialized args).1.channels.length = args.channels.length := by
  rw [ofSerialized_channels, buildChannelsFrom_fst_length]

theorem ofSerialized_postRecords_length (args : SerializedExperiment) :
    (Experiment.ofSerialized args).2.length = args.channels.length := by
  rw [ofSerialized_postRecords, buildChannelsFrom_snd_length]

theorem ofSerialized_channels_getElem (args : SerializedExperiment) (i : Nat) :
    (Experiment.ofSerialized args).1.channels[i]?
      = args.channels[i]?.map (fun ch => Channel.ofSerialized (extendVisible ch (i == 0))) := by
  rw [ofSerialized_channels]
  simpa using buildChannelsFrom_fst_getElem 0 args.channels i

theorem ofSerialized_postRecords_getElem (args : SerializedExperiment) (i : Nat) :
    (Experiment.ofSerialized args).2[i]?
      = args.channels[i]?.map (fun ch => extendVisible ch (i == 0)) := by
  rw [ofSerialized_postRecords]
  simpa using buildChannelsFrom_snd_getElem 0 args.channels i

/-- The visibility a Channel ends up with is exactly the injected flag. -/
theorem visible_of_extend (ch : SerializedChannel) (b : Bool) :
    (Channel.ofSerialized (extendVisible ch b)).visible = b := rfl

theorem foldl_max_bounds (l : List Int) (z : Int) :
    z ≤ l.foldl max z ∧ ∀ x ∈ l, x ≤ l.foldl max z := by
  induction l generalizing z with
  | nil => simp
  | cons a t ih =>
    have h := ih (max z a)
    refine ⟨le_trans (le_max_left z a) h.1, ?_⟩
    intro x hx
    rcases List.mem_cons.mp hx with rfl | hx
    · exact le_trans (le_max_right z x) h.1
    · exact h.2 x hx

theorem foldl_max_mem (l : List Int) (z : Int) :
    l.foldl max z = z ∨ l.foldl max z ∈ l := by
  induction l generalizing z with
  | nil => left; rfl
  | cons a t ih =>
    rcases ih (max z a) with h | h
    · rcases max_choice z a with hz | ha
      · left; rw [List.foldl_cons, h, hz]
      · right; rw [List.foldl_cons, h, ha]; exact List.mem_cons_self a t
    · right; exact List.mem_cons_of_mem a h

theorem foldl_min_bounds (l : List Int) (z : Int) :
    l.foldl min z ≤ z ∧ ∀ x ∈ l, l.foldl min z ≤ x := by
  induction l generalizing z with
  | nil => simp
  | cons a t ih =>
    have h := ih (min z a)
    refine ⟨le_trans h.1 (min_le_left z a), ?_⟩
    intro x hx
    rcases List.mem_cons.mp hx with rfl | hx
    · exact le_trans h.1 (min_le_right z x)
    · exact h.2 x hx

theorem foldl_min_mem (l : List Int) (z : Int) :
    l.foldl min z = z ∨ l.foldl min z ∈ l := by
  induction l generalizing z with
  | nil => left; rfl
  | cons a t ih =>
    rcases ih (min z a) with h | h
    · rcases min_choice z a with hz | ha
      · left; rw [List.foldl_cons, h, hz]
      · right; rw [List.foldl_cons, h, ha]; exact List.mem_cons_self a t
    · right; exact List.mem_cons_of_mem a h

/-! Concrete fixtures for witnesses and counterexamples. -/

def layerA : Layer := { maxZoom := 8 }

def layerB : Layer := { maxZoom := 3 }

def scFirst : SerializedChannel :=
  { id := "ch1", maxZ := 5, minZ := 0, layers := [layerA], visible := none }

def scSecond : SerializedChannel :=
  { id := "ch2", maxZ := 3, minZ := -2, layers := [layerB], visible := some true }

def seSample : SerializedExperiment :=
  { id := "e1", name := "exp", description := "d", status := "waiting"
    plate_format := "96", microscope_type := "cellvoyager"
    plate_acquisition_mode := "basic", mapobject_types := []
    workflow_description := "wf", channels := [scFirst, scSecond] }

def chP1 : Channel :=
  { id := "c1", maxZ := 5, minZ := 0, layers := [layerA], visible := true }

def chP2 : Channel :=
  { id := "c2", maxZ := 3, minZ := -2, layers := [layerB], visible := false }

def chQ1 : Channel :=
  { id := "c1", maxZ := 9, minZ := 9, layers := [layerA, layerB], visible := true }

def expP : Experiment :=
  { id := "p", name := "n", description := "d", plateFormat := "pf"
    microscopeType := "mt", mapobjectTypes := [], plateAcquisitionMode := "pm"
    channels := [chP1, chP2], workflowDescription := "wf", status := "s" }

def expQ : Experiment := { expP with id := "q", channels := [chQ1] }

def expEmpty : Experiment := { expP with channels := [] }

def twoChannelExp : Experiment := (Experiment.ofSerialized seSample).1

/-- C1: constructing an Experiment from a serialized record with N ≥ 1
channels yields a `channels` sequence of exactly N Channels, each built
from the source channel record at the same index (source order, no
deduplication or reordering), and the channel at index 0 is the only one
constructed with `visible = true`. -/
theorem construction_channel_spec (args : SerializedExperiment)
    (hN : 1 ≤ args.channels.length) :
    (Experiment.ofSerialized args).1.channels.length = args.channels.length ∧
    (∀ i : Nat,
      (Experiment.ofSerialized args).1.channels[i]?
        = args.channels[i]?.map (fun ch => Channel.ofSerialized (extendVisible ch (i == 0)))) ∧
    (∀ i : Nat,
      ((Experiment.ofSerialized args).1.channels[i]?.map Channel.visible)
        = args.channels[i]?.map (fun _ => (i == 0))) := by
  refine ⟨ofSerialized_channels_length args,
    fun i => ofSerialized_channels_getElem args i, fun i => ?_⟩
  rw [ofSerialized_channels_getElem args i]
  cases args.channels[i]? <;> simp [Channel.ofSerialized, extendVisible]

/-- C1 witness: at the concrete two-channel record `seSample`, the
hypothesis N ≥ 1 holds and construction yields 2 channels. -/
theorem construction_channel_spec_witness :
    1 ≤ seSample.channels.length ∧
    (Experiment.ofSerialized seSample).1.channels.length = seSample.channels.length :=
  ⟨by decide, (construction_channel_spec seSample (by decide)).1⟩

/-- C2 counterexample: in the concrete record `seSample`, the second
serialized channel itself encodes `visible = some true`, yet the Channel
constructed at index 1 has `visible = false`: the visibility encoded in
the serialized record is NOT preserved for channels other than the
first. -/
theorem record_visibility_not_preserved :
    (seSample.channels[1]?.map (fun ch => ch.visible)) = some (some true) ∧
    ((Experiment.ofSerialized seSample).1.channels[1]?.map Channel.visible)
      = some false := by
  decide

/-- C2 amended: the construction-time forced visibility override takes
precedence over the record's own flag for EVERY channel, not only the
first: whatever visibility a serialized channel record encodes, the
Channel constructed at index i has `visible = (i == 0)`. -/
theorem forced_visibility_every_channel (args : SerializedExperiment) (i : Nat) :
    ((Experiment.ofSerialized args).1.channels[i]?.map Channel.visible)
      = args.channels[i]?.map (fun _ => (i == 0)) := by
  rw [ofSerialized_channels_getElem args i]
  cases args.channels[i]? <;> simp [Channel.ofSerialized, extendVisible]

/-- C3: for an Experiment with at least one channel, `maxZ` equals the
maximum over all channels of the channel's own `maxZ` (it is some
channel's `maxZ` and bounds every channel's `maxZ` from above), and `minZ`
equals the minimum over all channels of the channel's own `minZ`. -/
theorem maxZ_minZ_aggregate (e : Experiment) (h : e.channels ≠ []) :
    (∃ c ∈ e.channels, e.maxZ = JsNum.num c.maxZ ∧
      ∀ c2 ∈ e.channels, c2.maxZ ≤ c.maxZ) ∧
    (∃ c ∈ e.channels, e.minZ = JsNum.num c.minZ ∧
      ∀ c2 ∈ e.channels, c.minZ ≤ c2.minZ) := by
  obtain ⟨c, rest, hce⟩ : ∃ c rest, e.channels = c :: rest := by
    cases hch : e.channels with
    | nil => exact absurd hch h
    | cons c rest => exact ⟨c, rest, rfl⟩
  constructor
  · have hbounds := foldl_max_bounds (rest.map fun ch => ch.maxZ) c.maxZ
    have hmem := foldl_max_mem (rest.map fun ch => ch.maxZ) c.maxZ
    have hval : e.maxZ
        = JsNum.num ((rest.map fun ch => ch.maxZ).foldl max c.maxZ) := by
      simp [Experiment.maxZ, mathMax, hce]
    have hub : ∀ c2 ∈ e.channels,
        c2.maxZ ≤ (rest.map fun ch => ch.maxZ).foldl max c.maxZ := by
      intro c2 hc2
      rw [hce] at hc2
      rcases List.mem_cons.mp hc2 with rfl | hc2
      · exact hbounds.1
      · exact hbounds.2 _ (List.mem_map_of_mem _ hc2)
    rcases hmem with heq | hin
    · refine ⟨c, by rw [hce]; exact List.mem_cons_self c rest, ?_, ?_⟩
      · rw [hval, heq]
      · intro c2 hc2
        exact le_of_le_of_eq (hub c2 hc2) heq
    · obtain ⟨cw, hcw, hfc⟩ := List.mem_map.mp hin
      refine ⟨cw, by rw [hce]; exact List.mem_cons_of_mem c hcw, ?_, ?_⟩
      · rw [hval, hfc]
      · intro c2 hc2
        exact le_of_le_of_eq (hub c2 hc2) hfc.symm
  · have hbounds := foldl_min_bounds (rest.map fun ch => ch.minZ) c.minZ
    have hmem := foldl_min_mem (rest.map fun ch => ch.minZ) c.minZ
    have hval : e.minZ
        = JsNum.num ((rest.map fun ch => ch.minZ).foldl min c.minZ) := by
      simp [Experiment.minZ, mathMin, hce]
    have hlb : ∀ c2 ∈ e.channels,
        (rest.map fun ch => ch.minZ).foldl min c.minZ ≤ c2.minZ := by
      intro c2 hc2
      rw [hce] at hc2
      rcases List.mem_cons.mp hc2 with rfl | hc2
      · exact hbounds.1
      · exact hbounds.2 _ (List.mem_map_of_mem _ hc2)
    rcases hmem with heq | hin
    · refine ⟨c, by rw [hce]; exact List.mem_cons_self c rest, ?_, ?_⟩
      · rw [hval, heq]
      · intro c2 hc2
        exact le_of_eq_of_le heq.symm (hlb c2 hc2)
    · obtain ⟨cw, hcw, hfc⟩ := List.mem_map.mp hin
      refine ⟨cw, by rw [hce]; exact List.mem_cons_of_mem c hcw, ?_, ?_⟩
      · rw [hval, hfc]
      · intro c2 hc2
        exact le_of_eq_of_le hfc (hlb c2 hc2)

/-- C3 witness: the aggregation holds at the concrete two-channel
experiment built from `seSample` (maxZ values 5 and 3, minZ values 0 and
-2). -/
theorem maxZ_minZ_aggregate_witness :
    twoChannelExp.channels ≠ [] ∧
    ((∃ c ∈ twoChannelExp.channels, twoChannelExp.maxZ = JsNum.num c.maxZ ∧
        ∀ c2 ∈ twoChannelExp.channels, c2.maxZ ≤ c.maxZ) ∧
     (∃ c ∈ twoChannelExp.channels, twoChannelExp.minZ = JsNum.num c.minZ ∧
        ∀ c2 ∈ twoChannelExp.channels, c.minZ ≤ c2.minZ)) :=
  ⟨by decide, maxZ_minZ_aggregate twoChannelExp (by decide)⟩

/-- C4: `maxZoom` equals the first channel's first layer's `maxZoom`, and
it reads only `channels[0].layers[0]`: any experiment whose first
channel's first layer is the same layer has the same `maxZoom`, whatever
its other channels or layers hold. -/
theorem maxZoom_reads_first_only (e e2 : Experiment) (c c2 : Channel)
    (l : Layer) (rest rest2 : List Channel) (ls ls2 : List Layer)
    (h : e.channels = c :: rest) (hl : c.layers = l :: ls)
    (h2 : e2.channels = c2 :: rest2) (hl2 : c2.layers = l :: ls2) :
    e.maxZoom = Except.ok l.maxZoom ∧ e2.maxZoom = e.maxZoom := by
  constructor
  · simp [Experiment.maxZoom, h, hl]
  · simp [Experiment.maxZoom, h, hl, h2, hl2]

/-- C4 witness: `expP` and `expQ` share the same first layer `layerA` but
differ in every other channel and layer; both give maxZoom 8. -/
theorem maxZoom_reads_first_only_witness :
    expP.maxZoom = Except.ok layerA.maxZoom ∧ expQ.maxZoom = expP.maxZoom :=
  maxZoom_reads_first_only expP expQ chP1 chQ1 layerA [chP2] [] [] [layerB]
    rfl rfl rfl rfl

/-- C5: `submitWorkflow` never rejects.  On transport failure, the catch
handler discards the rejected promise it creates and the returned future
resolves to `undefined`, so the caller cannot observe the failure as a
rejection; on success the future resolves to the raw response payload. -/
theorem submitWorkflow_swallows_failure :
    (∀ r : String, Experiment.submitWorkflow (Except.ok r)
      = POutcome.resolved (JsValue.str r)) ∧
    (∀ resp : FailureResponse,
      Experiment.submitWorkflow (Except.error resp) = POutcome.resolved JsValue.undef ∧
      ∀ v : JsValue,
        Experiment.submitWorkflow (Except.error resp) ≠ POutcome.rejected v) := by
  refine ⟨fun r => rfl, fun resp => ⟨rfl, fun v hcontra => ?_⟩⟩
  simp [Experiment.submitWorkflow] at hcontra

/-- C6: `delete` folds failure into the success channel: against a failing
transport the returned future resolves (never rejects) to the
service-reported error payload, and against any succeeding transport it
resolves to the boolean `true`, whatever the response body contains. -/
theorem delete_folds_failure_into_success :
    (∀ resp : OpaqueResponse, Experiment.deleteOp (Except.ok resp)
      = POutcome.resolved (JsValue.bool true)) ∧
    (∀ resp : FailureResponse,
      Experiment.deleteOp (Except.error resp)
        = POutcome.resolved (JsValue.str resp.data.error) ∧
      ∀ v : JsValue,
        Experiment.deleteOp (Except.error resp) ≠ POutcome.rejected v) := by
  refine ⟨fun resp => rfl, fun resp => ⟨rfl, fun v hcontra => ?_⟩⟩
  simp [Experiment.deleteOp] at hcontra

/-- C7: `create` rejects its returned future with the service-reported
error payload on transport failure, and on success with serialized record
`e` resolves it to a new Experiment constructed from `e`. -/
theorem create_rejects_with_error :
    (∀ resp : FailureResponse, Experiment.create (Except.error resp)
      = POutcome.rejected (JsValue.str resp.data.error)) ∧
    (∀ e : SerializedExperiment, Experiment.create (Except.ok e)
      = POutcome.resolved (JsValue.exp (Experiment.ofSerialized e).1)) :=
  ⟨fun resp => rfl, fun e => rfl⟩

/-- C8: `getAll` resolves to exactly one Experiment per record returned by
the service, constructed from those records in the order the service
listed them (one-per-index correspondence). -/
theorem getAll_order_preserving (es : List SerializedExperiment) :
    Experiment.getAll (Except.ok es)
      = POutcome.resolved (JsValue.exps (es.map fun e => (Experiment.ofSerialized e).1)) ∧
    (es.map fun e => (Experiment.ofSerialized e).1).length = es.length ∧
    ∀ i : Nat, (es.map fun e => (Experiment.ofSerialized e).1)[i]?
      = es[i]?.map (fun e => (Experiment.ofSerialized e).1) := by
  refine ⟨rfl, by simp, fun i => by simp⟩

/-- C9 counterexample: on the concrete experiment `expEmpty` with an empty
channels sequence, `maxZ` and `minZ` do NOT signal an error: they evaluate
to the defined values -Infinity and +Infinity (`Math.max()`/`Math.min()`
of an empty argument list), contradicting the claim that all three
projections signal an error at the point of access. -/
theorem empty_channels_no_error_for_minmax :
    expEmpty.maxZ = JsNum.negInf ∧ expEmpty.minZ = JsNum.posInf := by
  decide

/-- C9 amended: on an Experiment with no channels, `maxZoom` signals a
TypeError at the point of access (reading `.layers` of the undefined
`channels[0]`), while `maxZ` and `minZ` are unguarded but do not signal an
error: they evaluate to -Infinity and +Infinity respectively. -/
theorem empty_channels_projection_behavior (e : Experiment)
    (h : e.channels = []) :
    e.maxZoom = Except.error JsError.typeError ∧
    e.maxZ = JsNum.negInf ∧ e.minZ = JsNum.posInf := by
  refine ⟨?_, ?_, ?_⟩ <;>
    simp [Experiment.maxZoom, Experiment.maxZ, Experiment.minZ, mathMax, mathMin, h]

/-- C9 witness: the amended behavior at the concrete empty-channel
experiment `expEmpty`. -/
theorem empty_channels_projection_behavior_witness :
    expEmpty.channels = [] ∧
    (expEmpty.maxZoom = Except.error JsError.typeError ∧
     expEmpty.maxZ = JsNum.negInf ∧ expEmpty.minZ = JsNum.posInf) :=
  ⟨rfl, empty_channels_projection_behavior expEmpty rfl⟩

/-- C10: construction mutates its input.  `_.extend` writes a `visible`
field into each serialized channel record the caller passed (true for the
first record, false for every other), so the post-construction state of
the caller's records — the second component of `Experiment.ofSerialized` —
shows every record modified in place, carrying a written `visible`
field. -/
theorem construction_mutates_caller_records (args : SerializedExperiment) :
    (Experiment.ofSerialized args).2.length = args.channels.length ∧
    (∀ i : Nat,
      (Experiment.ofSerialized args).2[i]?
        = args.channels[i]?.map (fun ch => extendVisible ch (i == 0))) ∧
    (∀ i : Nat,
      ((Experiment.ofSerialized args).2[i]?.map (fun ch => ch.visible))
        = args.channels[i]?.map (fun _ => some (i == 0))) := by
  refine ⟨ofSerialized_postRecords_length args,
    fun i => ofSerialized_postRecords_getElem args i, fun i => ?_⟩
  rw [ofSerialized_postRecords_getElem args i]
  cases args.channels[i]? <;> simp [extendVisible]

end TissueMaps
